import Mathlib

/-!
Verification development for the aws-iot-fleetwise-edge repository.

This file gives a shallow embedding of the parts of the source needed to
settle the claims: the CollectionSchemeManager scheme maps and timeline
(CollectionSchemeManager.cpp), the OBD-over-CAN module's ECU discovery and
connect logic (OBDOverCANModule.cpp), the CAN raw frame reader's batch loop
(CANDataSource.cpp), and the data sender worker's persistency retry step
(DataSenderManagerWorkerThread.cpp).  Machine integers are modelled as Nat
with explicit reduction modulo 2^w where overflow matters; the std::map
containers are modelled as key-sorted association lists and the Timeline
min-heap as a time-sorted list whose head is the heap top.
-/

namespace AwsIoTFleetWise

/-- SyncID is a string identifier, as in the source (ICollectionScheme.h uses
std::string sync ids). -/
abbrev SyncID := String

/-- Timestamp in milliseconds since epoch (uint64_t in the source, modelled as
Nat; no arithmetic in the embedded functions can overflow 64 bits for the
inputs considered, all comparisons are order comparisons). -/
abbrev Timestamp := Nat

/-- Embeds ICollectionScheme: the fields of a collection scheme read by
CollectionSchemeManager.cpp (getCollectionSchemeID, getStartTime,
getExpiryTime, getDecoderManifestID), plus an abstract `content` field
standing for the remaining payload so that the source's full scheme
comparison `*collectionScheme != *currCollectionScheme` is a decidable
equality on all fields. -/
structure CollectionScheme where
  id : SyncID
  startTime : Timestamp
  expiryTime : Timestamp
  decoderManifestID : SyncID
  content : Nat
deriving DecidableEq

/-- Embeds TimeData (TimeTypes.h): an entry of the Timeline min-heap.  Only
the systemTimeMs component of the TimePoint is ever compared by
CollectionSchemeManager.cpp, so the entry is modelled as that one time. -/
structure TimeData where
  time : Timestamp
  id : SyncID
deriving DecidableEq

/-- A scheme map (std::map<SyncID, ICollectionSchemePtr>) modelled as a
key-sorted association list. -/
abbrev SchemeMap := List (SyncID × CollectionScheme)

/-- std::map::find. -/
def mapFind (m : SchemeMap) (k : SyncID) : Option CollectionScheme :=
  match m with
  | [] => none
  | (k', v) :: rest => if k = k' then some v else mapFind rest k

/-- std::map operator[] assignment: insert or replace, keeping keys sorted. -/
def mapInsert (k : SyncID) (v : CollectionScheme) : SchemeMap → SchemeMap
  | [] => [(k, v)]
  | (k', v') :: rest =>
    if k < k' then (k, v) :: (k', v') :: rest
    else if k = k' then (k, v) :: rest
    else (k', v') :: mapInsert k v rest

/-- std::map::erase by key. -/
def mapErase (k : SyncID) (m : SchemeMap) : SchemeMap :=
  m.filter (fun p => decide (p.1 ≠ k))

theorem mapFind_insert_self (k : SyncID) (v : CollectionScheme) (m : SchemeMap) :
    mapFind (mapInsert k v m) k = some v := by
  induction m with
  | nil => simp [mapInsert, mapFind]
  | cons p rest ih =>
    obtain ⟨k', v'⟩ := p
    by_cases h1 : k < k'
    · simp [mapInsert, h1, mapFind]
    · by_cases h2 : k = k'
      · simp [mapInsert, h1, h2, mapFind]
      · simp [mapInsert, h1, h2, mapFind, ih]

theorem mapFind_insert_ne (k j : SyncID) (v : CollectionScheme) (m : SchemeMap)
    (h : k ≠ j) : mapFind (mapInsert j v m) k = mapFind m k := by
  induction m with
  | nil => simp [mapInsert, mapFind, h]
  | cons p rest ih =>
    obtain ⟨k', v'⟩ := p
    by_cases h1 : j < k'
    · simp [mapInsert, h1, mapFind, h]
    · by_cases h2 : j = k'
      · subst h2
        simp [mapInsert, h1, mapFind, h]
      · by_cases h3 : k = k'
        · simp [mapInsert, h1, h2, mapFind, h3]
        · simp [mapInsert, h1, h2, mapFind, h3, ih]

theorem mapFind_erase_self (k : SyncID) (m : SchemeMap) :
    mapFind (mapErase k m) k = none := by
  induction m with
  | nil => simp [mapErase, mapFind]
  | cons p rest ih =>
    obtain ⟨k', v'⟩ := p
    by_cases h : k' = k
    · simpa [mapErase, h] using ih
    · have hk : k ≠ k' := fun hkk => h hkk.symm
      simpa [mapErase, h, mapFind, hk] using ih

theorem mapFind_erase_ne (k j : SyncID) (m : SchemeMap) (h : k ≠ j) :
    mapFind (mapErase j m) k = mapFind m k := by
  induction m with
  | nil => simp [mapErase, mapFind]
  | cons p rest ih =>
    obtain ⟨k', v'⟩ := p
    by_cases h1 : k' = j
    · subst h1
      simpa [mapErase, mapFind, h] using ih
    · by_cases h2 : k = k'
      · simp [mapErase, h1, mapFind, h2]
      · simpa [mapErase, h1, mapFind, h2] using ih

/-- Push onto the Timeline min-heap (std::priority_queue with greater-than
comparison on systemTimeMs): modelled as insertion into a time-sorted list,
new entries with equal time going after existing ones.  The head of the list
is the heap top. -/
def timelinePush (e : TimeData) : List TimeData → List TimeData
  | [] => [e]
  | x :: rest => if e.time < x.time then e :: x :: rest else x :: timelinePush e rest

/-- The mutable state of CollectionSchemeManager that the map/timeline
functions operate on: mEnabledCollectionSchemeMap, mIdleCollectionSchemeMap
and mTimeLine. -/
structure PolicyState where
  enabled : SchemeMap
  idle : SchemeMap
  timeLine : List TimeData
deriving DecidableEq

/-- Embeds CollectionSchemeManager::rebuildMapsandTimeLine
(CollectionSchemeManager.cpp:581-620).  For each scheme of the incoming list:
if startTime > currTime it goes to the Idle map and both its startTime and
stopTime are pushed to the timeline; else if stopTime > currTime it goes to
the Enabled map, its stopTime is pushed and the return flag is set; otherwise
it is skipped.  The returned Bool is the function's return value
(true when mEnabledCollectionSchemeMap received a scheme). -/
def rebuildMapsandTimeLine (currTime : Timestamp) (schemes : List CollectionScheme)
    (s : PolicyState) : Bool × PolicyState :=
  match schemes with
  | [] => (false, s)
  | cs :: rest =>
    if cs.startTime > currTime then
      rebuildMapsandTimeLine currTime rest
        { s with idle := mapInsert cs.id cs s.idle,
                 timeLine := timelinePush ⟨cs.expiryTime, cs.id⟩
                   (timelinePush ⟨cs.startTime, cs.id⟩ s.timeLine) }
    else if cs.expiryTime > currTime then
      let r := rebuildMapsandTimeLine currTime rest
        { s with enabled := mapInsert cs.id cs s.enabled,
                 timeLine := timelinePush ⟨cs.expiryTime, cs.id⟩ s.timeLine }
      (true, r.2)
    else
      rebuildMapsandTimeLine currTime rest s

/-- Embeds the per-scheme body of the loop in
CollectionSchemeManager::updateMapsandTimeLine
(CollectionSchemeManager.cpp:660-767): locate the scheme in the Enabled map,
then the Idle map; update stop/start times, flip the scheme immediately when
its time window says so, or insert it as a new scheme.  Returns the
contribution to the ret flag and the updated state.  No timeline entry is
ever popped here, only pushed. -/
def updateSchemeStep (currTime : Timestamp) (cs : CollectionScheme)
    (s : PolicyState) : Bool × PolicyState :=
  match mapFind s.enabled cs.id with
  | some curr =>
    if cs.expiryTime ≤ currTime then
      (true, { s with enabled := mapErase cs.id s.enabled })
    else
      let s1 := if cs.expiryTime ≠ curr.expiryTime then
          { s with enabled := mapInsert cs.id cs s.enabled,
                   timeLine := timelinePush ⟨cs.expiryTime, cs.id⟩ s.timeLine }
        else s
      if cs ≠ curr then
        (true, { s1 with enabled := mapInsert cs.id cs s1.enabled })
      else
        (false, s1)
  | none =>
    match mapFind s.idle cs.id with
    | some curr =>
      if cs.startTime ≤ currTime ∧ cs.expiryTime > currTime then
        (true, { s with idle := mapErase cs.id s.idle,
                        enabled := mapInsert cs.id cs s.enabled,
                        timeLine := timelinePush ⟨cs.expiryTime, cs.id⟩ s.timeLine })
      else if cs.startTime > currTime ∧
          (cs.startTime ≠ curr.startTime ∨ cs.expiryTime ≠ curr.expiryTime) then
        (false, { s with idle := mapInsert cs.id cs s.idle,
                         timeLine := timelinePush ⟨cs.expiryTime, cs.id⟩
                           (timelinePush ⟨cs.startTime, cs.id⟩ s.timeLine) })
      else
        (false, { s with idle := mapInsert cs.id cs s.idle })
    | none =>
      if cs.startTime ≤ currTime ∧ cs.expiryTime > currTime then
        (true, { s with enabled := mapInsert cs.id cs s.enabled,
                        timeLine := timelinePush ⟨cs.expiryTime, cs.id⟩ s.timeLine })
      else if cs.startTime > currTime then
        (false, { s with idle := mapInsert cs.id cs s.idle,
                         timeLine := timelinePush ⟨cs.expiryTime, cs.id⟩
                           (timelinePush ⟨cs.startTime, cs.id⟩ s.timeLine) })
      else
        (false, s)

/-- Embeds CollectionSchemeManager::updateMapsandTimeLine
(CollectionSchemeManager.cpp:647-808): run the per-scheme update over the
incoming list, then erase from the Idle and Enabled maps every scheme whose
id is missing from the incoming list (an Enabled removal sets the ret flag).
The returned Bool is the function's return value (true when
mEnabledCollectionSchemeMap changed). -/
def updateMapsandTimeLine (currTime : Timestamp) (schemes : List CollectionScheme)
    (s : PolicyState) : Bool × PolicyState :=
  let step := schemes.foldl
    (fun (acc : Bool × PolicyState) cs =>
      let r := updateSchemeStep currTime cs acc.2
      (acc.1 || r.1, r.2))
    (false, s)
  let newIDs := schemes.map (fun cs => cs.id)
  let s1 := step.2
  let idleKept := s1.idle.filter (fun p => newIDs.contains p.1)
  let enabledRemoved := s1.enabled.any (fun p => !(newIDs.contains p.1))
  let enabledKept := s1.enabled.filter (fun p => newIDs.contains p.1)
  (step.1 || enabledRemoved, { s1 with enabled := enabledKept, idle := idleKept })

/-- Outcome of examining the top Timeline entry in one iteration of the while
loop of CollectionSchemeManager::checkTimeLine. -/
inductive TimelineOutcome where
  /-- The entry references a valid future time: the loop breaks without
  popping it. -/
  | stop : TimelineOutcome
  /-- The entry is obsolete (id in neither map, or the time no longer matches
  the scheme's current start/stop time): it is popped and dropped. -/
  | discard : TimelineOutcome
  /-- The entry enables the referenced Idle scheme (moved to Enabled). -/
  | enable (cs : CollectionScheme) : TimelineOutcome
  /-- The entry disables the referenced Enabled scheme (erased). -/
  | disable (cs : CollectionScheme) : TimelineOutcome
deriving DecidableEq

/-- Embeds one iteration of the while loop of
CollectionSchemeManager::checkTimeLine (CollectionSchemeManager.cpp:838-938):
look the popped id up in the Enabled map first, then the Idle map; compare
the entry's time against the scheme's current stop (Enabled) or start (Idle)
time; classify the entry as a flip, an obsolete entry to drop, or the next
valid future time point at which the loop breaks. -/
def checkTimeLineStep (currTime : Timestamp) (enabled idle : SchemeMap)
    (top : TimeData) : TimelineOutcome :=
  match mapFind enabled top.id with
  | some cs =>
    if cs.expiryTime ≠ top.time then .discard
    else if top.time ≤ currTime then .disable cs
    else .stop
  | none =>
    match mapFind idle top.id with
    | some cs =>
      if cs.startTime ≠ top.time then .discard
      else if top.time ≤ currTime then .enable cs
      else .stop
    | none => .discard

/-- Result of the checkTimeLine loop: the ret flag, the two maps, the
remaining timeline, and (as an observation for the proofs) the list of
entries popped from the heap, in pop order. -/
structure CheckResult where
  changed : Bool
  enabled : SchemeMap
  idle : SchemeMap
  timeLine : List TimeData
  popped : List TimeData
deriving DecidableEq

/-- Embeds the while loop of CollectionSchemeManager::checkTimeLine
(CollectionSchemeManager.cpp:838-938), structured through
`checkTimeLineStep`. -/
def checkTimeLineLoop (currTime : Timestamp) (tl : List TimeData)
    (enabled idle : SchemeMap) (ret : Bool) : CheckResult :=
  match tl with
  | [] => ⟨ret, enabled, idle, [], []⟩
  | top :: rest =>
    match checkTimeLineStep currTime enabled idle top with
    | .stop => ⟨ret, enabled, idle, top :: rest, []⟩
    | .discard =>
      let r := checkTimeLineLoop currTime rest enabled idle ret
      { r with popped := top :: r.popped }
    | .enable cs =>
      let r := checkTimeLineLoop currTime rest
        (mapInsert top.id cs enabled) (mapErase top.id idle) true
      { r with popped := top :: r.popped }
    | .disable _ =>
      let r := checkTimeLineLoop currTime rest (mapErase top.id enabled) idle true
      { r with popped := top :: r.popped }

/-- Embeds CollectionSchemeManager::checkTimeLine
(CollectionSchemeManager.cpp:829-945): return immediately when the timeline
is empty or the top entry's time is still in the future, otherwise run the
loop.  Returns the function's Bool return value (enabled map changed), the
new state, and the list of popped entries. -/
def checkTimeLine (currTime : Timestamp) (s : PolicyState) :
    Bool × PolicyState × List TimeData :=
  match s.timeLine with
  | [] => (false, s, [])
  | top :: _ =>
    if currTime < top.time then (false, s, [])
    else
      let r := checkTimeLineLoop currTime s.timeLine s.enabled s.idle false
      (r.changed, ⟨r.enabled, r.idle, r.timeLine⟩, r.popped)

/-- Embeds CollectionSchemeManager::isCollectionSchemesInSyncWithDm
(CollectionSchemeManager.cpp:947-969): true iff every scheme in the Enabled
map and every scheme in the Idle map records the currently active decoder
manifest id. -/
def isCollectionSchemesInSyncWithDm (currentDM : SyncID)
    (enabled idle : SchemeMap) : Bool :=
  enabled.all (fun p => p.2.decoderManifestID == currentDM) &&
    idle.all (fun p => p.2.decoderManifestID == currentDM)

/-- Embeds CollectionSchemeManager::updateActiveCollectionSchemeListeners
(CollectionSchemeManager.cpp:971-988): the list of active collection schemes
published to listeners is the whole Enabled map when
isCollectionSchemesInSyncWithDm holds, and empty otherwise.  The maps
themselves are not modified by this function. -/
def updateActiveCollectionSchemeListeners (currentDM : SyncID)
    (enabled idle : SchemeMap) : List CollectionScheme :=
  if isCollectionSchemesInSyncWithDm currentDM enabled idle then
    enabled.map (fun p => p.2)
  else
    []

/-- Embeds CollectionSchemeManager::updateCheckinDocuments
(CollectionSchemeManager.cpp:346-371): the checkin lists the Enabled map
ids, then the Idle map ids, then the current decoder manifest id when it is
non-empty. -/
def updateCheckinDocuments (currentDM : SyncID) (enabled idle : SchemeMap) :
    List SyncID :=
  (enabled.map (fun p => p.1)) ++ (idle.map (fun p => p.1)) ++
    (if currentDM = "" then [] else [currentDM])

/-- Embeds IDecoderManifest as consumed by
CollectionSchemeManager::processDecoderManifest: its sync id and whether
build() succeeds. -/
structure DecoderManifest where
  id : SyncID
  buildOk : Bool
deriving DecidableEq

/-- The manifest-related state of CollectionSchemeManager:
mCurrentDecoderManifestID and the id last persisted via
store(DataType::DECODER_MANIFEST) (none when nothing was stored). -/
structure ManifestState where
  currentDecoderManifestID : SyncID
  persisted : Option SyncID
deriving DecidableEq

/-- Embeds CollectionSchemeManager::processDecoderManifest
(CollectionSchemeManager.cpp:462-489): a null or unbuildable manifest is
rejected with no state change; a manifest whose id equals
mCurrentDecoderManifestID is dropped with no state change; otherwise the
current id is replaced by the new id, the manifest is persisted, and true
(the decoder-changed flag) is returned. -/
def processDecoderManifest (dm : Option DecoderManifest) (s : ManifestState) :
    Bool × ManifestState :=
  match dm with
  | none => (false, s)
  | some m =>
    if m.buildOk = false then (false, s)
    else if m.id = s.currentDecoderManifestID then (false, s)
    else (true, { currentDecoderManifestID := m.id, persisted := some m.id })

/-- CAN_EFF_MASK from linux/can.h: the 29 low bits of an extended CAN id. -/
def CAN_EFF_MASK : Nat := 0x1FFFFFFF

/-- OBDOverCANModule::MASKING_GET_BYTE (value documented by the computation
comment at OBDOverCANModule.cpp:457-463: rx_id & 0xFF keeps the last byte). -/
def MASKING_GET_BYTE : Nat := 0xFF

/-- OBDOverCANModule::MASKING_SHIFT_BITS (shift 8 bits,
OBDOverCANModule.cpp:32). -/
def MASKING_SHIFT_BITS : Nat := 8

/-- OBDOverCANModule::MASKING_TEMPLATE_TX_ID (0x18DA00F1, the common bytes of
all 29-bit tx ids, per the comment at OBDOverCANModule.cpp:457-463). -/
def MASKING_TEMPLATE_TX_ID : Nat := 0x18DA00F1

/-- OBDOverCANModule::MASKING_REMOVE_BYTE (0x8, per the comment
rx_id - 0x8 = tx_id at OBDOverCANModule.cpp:462-463). -/
def MASKING_REMOVE_BYTE : Nat := 0x08

/-- ECUID::LOWEST_ECU_RX_ID, per the range comment at
OBDOverCANModule.cpp:379 (11-bit responses lie in [0x7E8, 0x7EF]). -/
def LOWEST_ECU_RX_ID : Nat := 0x7E8

/-- ECUID::HIGHEST_ECU_RX_ID (0x7EF, OBDOverCANModule.cpp:379). -/
def HIGHEST_ECU_RX_ID : Nat := 0x7EF

/-- ECUID::LOWEST_ECU_EXTENDED_RX_ID (0x18DAF100, OBDOverCANModule.cpp:380). -/
def LOWEST_ECU_EXTENDED_RX_ID : Nat := 0x18DAF100

/-- ECUID::HIGHEST_ECU_EXTENDED_RX_ID (0x18DAF1FF, OBDOverCANModule.cpp:380). -/
def HIGHEST_ECU_EXTENDED_RX_ID : Nat := 0x18DAF1FF

/-- Embeds OBDOverCANModule::getTxIDByRxID (OBDOverCANModule.cpp:454-466).
rxId is a uint32_t; the 11-bit branch's subtraction is uint32 arithmetic, so
it is modelled as addition of 2^32 - MASKING_REMOVE_BYTE modulo 2^32. -/
def getTxIDByRxID (isExtendedID : Bool) (rxId : Nat) : Nat :=
  if isExtendedID then
    (((rxId % 2 ^ 32) &&& MASKING_GET_BYTE) <<< MASKING_SHIFT_BITS) |||
      MASKING_TEMPLATE_TX_ID
  else
    (rxId % 2 ^ 32 + (2 ^ 32 - MASKING_REMOVE_BYTE)) % 2 ^ 32

/-- Embeds the frame id computation of OBDOverCANModule::autoDetectECUs
(OBDOverCANModule.cpp:381): in extended mode the received can_id is masked
with CAN_EFF_MASK, otherwise used as is. -/
def autoDetectFrameCANId (isExtendedID : Bool) (canId : Nat) : Nat :=
  if isExtendedID then canId &&& CAN_EFF_MASK else canId

/-- Embeds the acceptance test of OBDOverCANModule::autoDetectECUs
(OBDOverCANModule.cpp:382-390): a response frame's id is collected as an ECU
rx id iff the (possibly masked) id lies between the lowest and highest ECU
rx id of the addressing mode. -/
def autoDetectAccepts (isExtendedID : Bool) (canId : Nat) : Bool :=
  let frameCANId := autoDetectFrameCANId isExtendedID canId
  let smallestCANId := if isExtendedID then LOWEST_ECU_EXTENDED_RX_ID else LOWEST_ECU_RX_ID
  let biggestCANId := if isExtendedID then HIGHEST_ECU_EXTENDED_RX_ID else HIGHEST_ECU_RX_ID
  decide (smallestCANId ≤ frameCANId) && decide (frameCANId ≤ biggestCANId)

/-- Embeds OBDOverCANModule::connect (OBDOverCANModule.cpp:508-517): when
both request intervals are zero it returns true without calling start() (so
the worker thread that performs ECU discovery and PID/DTC requests is never
created); otherwise it returns the result of start(), which creates the
worker thread.  The first component is connect()'s return value, the second
records whether start() was invoked; `startResult` abstracts the
environment-dependent outcome of thread creation in start(). -/
def obdConnect (pidRequestIntervalSeconds dtcRequestIntervalSeconds : Nat)
    (startResult : Bool) : Bool × Bool :=
  if pidRequestIntervalSeconds = 0 ∧ dtcRequestIntervalSeconds = 0 then
    (true, false)
  else
    (startResult, true)

/-- Modelled from the spec: PARALLEL_RECEIVED_FRAMES_FROM_KERNEL, the maximum
number of CAN frames read per recvmmsg syscall in CANDataSource::doWork.  The
constant is declared in CANDataSource.h, which is not part of the available
sources; the spec fixes it: "Continuously reads batches of up to B = 10
frames per syscall". -/
def PARALLEL_RECEIVED_FRAMES_FROM_KERNEL : Nat := 10

/-- Embeds one iteration of the read loop of CANDataSource::doWork
(CANDataSource.cpp, src/unnamed/part_002:146-253) after the thread has a
valid decoder dictionary, for a batch of frames returned by recvmmsg: frames
are passed to the consumer only when the wokeUpFromSleep flag is false, and
the flag is cleared only when the batch has fewer than
PARALLEL_RECEIVED_FRAMES_FROM_KERNEL frames.  Frames are modelled
abstractly as Nat; the first component is the list of frames timestamped,
counted and passed to CANDataConsumer::processMessage, the second is the
flag's new value. -/
def canDoWorkIteration (wokeUpFromSleep : Bool) (batch : List Nat) :
    List Nat × Bool :=
  let processed := if wokeUpFromSleep then [] else batch
  let newWoke :=
    if batch.length < PARALLEL_RECEIVED_FRAMES_FROM_KERNEL then false
    else wokeUpFromSleep
  (processed, newWoke)

/-- Iterates `canDoWorkIteration` over successive recvmmsg batches, starting
from a given wokeUpFromSleep flag value (true right after the thread was
woken from the dictionary-null sleep, CANDataSource.cpp lines 164-171),
returning per batch the frames passed to the consumer. -/
def canProcessBatches (woke : Bool) : List (List Nat) → List (List Nat)
  | [] => []
  | b :: rest =>
    let r := canDoWorkIteration woke b
    r.1 :: canProcessBatches r.2 rest

/-- The sender worker state relevant to the persistency retry logic of
DataSenderManagerWorkerThread::doWork: the uploadedPersistedDataOnce flag and
the current reading of mRetrySendingPersistedDataTimer in milliseconds. -/
structure SenderState where
  uploadedPersistedDataOnce : Bool
  retryTimerElapsedMs : Nat
deriving DecidableEq

/-- Embeds the persistency retry step at the end of each iteration of
DataSenderManagerWorkerThread::doWork
(DataSenderManagerWorkerThread.cpp:121-132): when persisted data was never
uploaded, or the retry interval is positive and the retry timer reached it,
the timer is reset and — only if the connectivity module is alive —
DataSenderManager::checkAndSendRetrievedData is invoked (modelled by the Nat
count of invocations) and the flag is set. -/
def senderPersistencyStep (persistencyUploadRetryIntervalMs : Nat)
    (connectivityAlive : Bool) (s : SenderState) : Nat × SenderState :=
  if (!s.uploadedPersistedDataOnce) ||
      (decide (0 < persistencyUploadRetryIntervalMs) &&
        decide (persistencyUploadRetryIntervalMs ≤ s.retryTimerElapsedMs)) then
    if connectivityAlive then
      (1, { uploadedPersistedDataOnce := true, retryTimerElapsedMs := 0 })
    else
      (0, { s with retryTimerElapsedMs := 0 })
  else
    (0, s)

/-- Claim C5: when a rebuild pass processes a pending Decoder Manifest that
builds successfully, an id equal to the active one leaves the active id, the
persisted state and the decoder-changed flag (the return value) unchanged; a
differing id replaces the active id with exactly the new id, persists it and
returns true.  After any single pass the active id equals either the prior
one or the newly received one. -/
theorem C5_processDecoderManifest (m : DecoderManifest) (s : ManifestState) :
    (m.buildOk = true → m.id = s.currentDecoderManifestID →
      processDecoderManifest (some m) s = (false, s)) ∧
    (m.buildOk = true → m.id ≠ s.currentDecoderManifestID →
      processDecoderManifest (some m) s = (true, ⟨m.id, some m.id⟩)) ∧
    (∀ dm : Option DecoderManifest,
      (processDecoderManifest dm s).2.currentDecoderManifestID =
          s.currentDecoderManifestID ∨
        ∃ m2, dm = some m2 ∧
          (processDecoderManifest dm s).2.currentDecoderManifestID = m2.id) := by
  refine ⟨?_, ?_, ?_⟩
  · intro hb heq
    simp [processDecoderManifest, hb, heq]
  · intro hb hne
    simp [processDecoderManifest, hb, hne]
  · intro dm
    match dm with
    | none => exact Or.inl rfl
    | some m2 =>
      by_cases hb : m2.buildOk = false
      · exact Or.inl (by simp [processDecoderManifest, hb])
      · by_cases heq : m2.id = s.currentDecoderManifestID
        · exact Or.inl (by simp [processDecoderManifest, hb, heq])
        · exact Or.inr ⟨m2, rfl, by simp [processDecoderManifest, hb, heq]⟩

/-- Witness for C5: a successfully building manifest DM2 replaces the active
manifest DM1, is persisted, and the decoder-changed flag is returned. -/
theorem C5_processDecoderManifest_witness :
    processDecoderManifest (some ⟨"DM2", true⟩) ⟨"DM1", none⟩ =
      (true, ⟨"DM2", some "DM2"⟩) :=
  (C5_processDecoderManifest ⟨"DM2", true⟩ ⟨"DM1", none⟩).2.1 rfl (by decide)

/-- Claim C6: a checkin document lists exactly the ids of the Enabled map,
the ids of the Idle map, and the current decoder manifest id — the manifest
id being omitted exactly when it is the empty string. -/
theorem C6_updateCheckinDocuments_exact (currentDM : SyncID)
    (enabled idle : SchemeMap) (x : SyncID) :
    x ∈ updateCheckinDocuments currentDM enabled idle ↔
      ((∃ p ∈ enabled, p.1 = x) ∨ (∃ p ∈ idle, p.1 = x) ∨
        (x = currentDM ∧ currentDM ≠ "")) := by
  by_cases h : currentDM = ""
  · subst h
    simp [updateCheckinDocuments]
  · simp only [updateCheckinDocuments, if_neg h, List.mem_append, List.mem_map,
      List.mem_singleton]
    constructor
    · rintro ((he | hi) | hx)
      · exact Or.inl he
      · exact Or.inr (Or.inl hi)
      · exact Or.inr (Or.inr ⟨hx, h⟩)
    · rintro (he | hi | ⟨hx, _⟩)
      · exact Or.inl (Or.inl he)
      · exact Or.inl (Or.inr hi)
      · exact Or.inr hx

/-- Claim C7: a response frame is collected as an ECU rx id during discovery
iff its CAN id (reduced modulo 2^29 in extended mode, which is the
CAN_EFF_MASK masking) lies in [0x7E8, 0x7EF] for 11-bit addressing or
[0x18DAF100, 0x18DAF1FF] for 29-bit addressing; and for every accepted rx
id the computed tx id is rx - 8 (11-bit) respectively
0x18DA00F1 ||| ((rx &&& 0xFF) <<< 8) (29-bit, applied to the masked rx id
that discovery stores). -/
theorem C7_obd_discovery_ids (canId : Nat) :
    (autoDetectAccepts false canId = true ↔ (0x7E8 ≤ canId ∧ canId ≤ 0x7EF)) ∧
    (autoDetectAccepts true canId = true ↔
      (0x18DAF100 ≤ canId % 2 ^ 29 ∧ canId % 2 ^ 29 ≤ 0x18DAF1FF)) ∧
    (autoDetectAccepts false canId = true →
      getTxIDByRxID false canId = canId - 8) ∧
    (autoDetectAccepts true canId = true →
      getTxIDByRxID true (autoDetectFrameCANId true canId) =
        0x18DA00F1 ||| ((autoDetectFrameCANId true canId &&& 0xFF) <<< 8)) := by
  have hmask : canId &&& CAN_EFF_MASK = canId % 2 ^ 29 := by
    have h29 : CAN_EFF_MASK = 2 ^ 29 - 1 := by norm_num [CAN_EFF_MASK]
    rw [h29, Nat.and_pow_two_sub_one_eq_mod]
  refine ⟨?_, ?_, ?_, ?_⟩
  · simp [autoDetectAccepts, autoDetectFrameCANId, LOWEST_ECU_RX_ID,
      HIGHEST_ECU_RX_ID]
  · simp [autoDetectAccepts, autoDetectFrameCANId, hmask,
      LOWEST_ECU_EXTENDED_RX_ID, HIGHEST_ECU_EXTENDED_RX_ID]
  · intro hacc
    have hb : 0x7E8 ≤ canId ∧ canId ≤ 0x7EF := by
      simpa [autoDetectAccepts, autoDetectFrameCANId, LOWEST_ECU_RX_ID,
        HIGHEST_ECU_RX_ID] using hacc
    simp only [getTxIDByRxID, if_neg (Bool.false_ne_true), MASKING_REMOVE_BYTE]
    omega
  · intro _
    have hle : autoDetectFrameCANId true canId ≤ CAN_EFF_MASK := by
      simpa [autoDetectFrameCANId] using Nat.and_le_right
    have hlt : autoDetectFrameCANId true canId < 2 ^ 32 := by
      have : CAN_EFF_MASK < 2 ^ 32 := by norm_num [CAN_EFF_MASK]
      omega
    simp only [getTxIDByRxID, if_pos rfl, MASKING_GET_BYTE, MASKING_SHIFT_BITS,
      MASKING_TEMPLATE_TX_ID, Nat.mod_eq_of_lt hlt]
    exact Nat.lor_comm _ _

/-- Witness for C7: the standard rx id 0x7E8 is accepted and maps to tx id
0x7E0, and the extended response id 0x98DAF159 (EFF flag set) is accepted
and its masked rx id 0x18DAF159 maps to tx id 0x18DA59F1. -/
theorem C7_obd_discovery_ids_witness :
    (autoDetectAccepts false 0x7E8 = true ∧ getTxIDByRxID false 0x7E8 = 0x7E8 - 8) ∧
    (autoDetectAccepts true 0x98DAF159 = true ∧
      getTxIDByRxID true (autoDetectFrameCANId true 0x98DAF159) =
        0x18DA00F1 ||| ((autoDetectFrameCANId true 0x98DAF159 &&& 0xFF) <<< 8)) :=
  ⟨⟨by decide, (C7_obd_discovery_ids 0x7E8).2.2.1 (by decide)⟩,
    ⟨by decide, (C7_obd_discovery_ids 0x98DAF159).2.2.2 (by decide)⟩⟩

/-- Claim C9: the sender worker's persistency step never invokes
checkAndSendRetrievedData while the connectivity module is not alive; and
whenever the retry timer reached persistencyUploadRetryIntervalMs (or
persisted data was never yet uploaded, which covers the first pass after
start) with connectivity alive, it invokes it exactly once and resets the
timer. -/
theorem C9_senderPersistencyStep (interval : Nat) (alive : Bool)
    (s : SenderState) :
    (alive = false → (senderPersistencyStep interval alive s).1 = 0) ∧
    (alive = true →
      (s.uploadedPersistedDataOnce = false ∨
        (0 < interval ∧ interval ≤ s.retryTimerElapsedMs)) →
      (senderPersistencyStep interval alive s).1 = 1 ∧
        (senderPersistencyStep interval alive s).2.retryTimerElapsedMs = 0) := by
  constructor
  · intro ha
    subst ha
    unfold senderPersistencyStep
    split <;> simp
  · intro ha hcond
    subst ha
    have hguard : ((!s.uploadedPersistedDataOnce) ||
        (decide (0 < interval) && decide (interval ≤ s.retryTimerElapsedMs))) = true := by
      rcases hcond with h1 | ⟨h2, h3⟩
      · simp [h1]
      · simp [h2, h3]
    simp [senderPersistencyStep, hguard]

/-- Witness for C9: on the first pass (nothing uploaded yet) with
connectivity alive, the retrieval runs once and the timer is reset. -/
theorem C9_senderPersistencyStep_witness :
    (senderPersistencyStep 1000 true ⟨false, 0⟩).1 = 1 ∧
    (senderPersistencyStep 1000 true ⟨false, 0⟩).2.retryTimerElapsedMs = 0 :=
  (C9_senderPersistencyStep 1000 true ⟨false, 0⟩).2 rfl (Or.inl rfl)

/-- Claim C10: when both pidRequestIntervalSeconds and
dtcRequestIntervalSeconds are 0, OBDOverCANModule::connect returns true
without invoking start(), so the worker thread that performs ECU discovery
and PID/DTC requests is never created; when at least one interval is
non-zero, connect invokes start() (whose result it returns). -/
theorem C10_obdConnect (p d : Nat) (r : Bool) :
    (p = 0 → d = 0 → obdConnect p d r = (true, false)) ∧
    (¬(p = 0 ∧ d = 0) → obdConnect p d r = (r, true)) := by
  constructor
  · intro hp hd
    simp [obdConnect, hp, hd]
  · intro h
    simp [obdConnect, h]

/-- Witness for C10: with both intervals zero, connect returns true and the
thread is not started; with a non-zero PID interval, start() is invoked. -/
theorem C10_obdConnect_witness :
    obdConnect 0 0 true = (true, false) ∧ obdConnect 5 0 true = (true, true) :=
  ⟨(C10_obdConnect 0 0 true).1 rfl rfl,
    (C10_obdConnect 5 0 true).2 (by simp)⟩

/-- Claim C2 counterexample: with active manifest DM1, an Enabled map holding
one in-sync scheme A (manifest DM1) and one out-of-sync scheme B (manifest
DM2), the published active-scheme list is empty, so scheme A is excluded even
though its manifest id matches — contradicting the claim that only
out-of-sync schemes are excluded while matching schemes remain included. -/
theorem C2_counterexample_all_or_nothing :
    let csA : CollectionScheme := ⟨"A", 5, 10, "DM1", 0⟩
    let csB : CollectionScheme := ⟨"B", 5, 10, "DM2", 0⟩
    csA.decoderManifestID = "DM1" ∧
    csB.decoderManifestID ≠ "DM1" ∧
    ("A", csA) ∈ [("A", csA), ("B", csB)] ∧
    updateActiveCollectionSchemeListeners "DM1" [("A", csA), ("B", csB)] [] = [] := by
  decide

/-- Claim C2 amended: the isCollectionSchemesInSyncWithDm check is
all-or-nothing — it holds iff every Enabled and every Idle scheme records the
active manifest id; when it holds the whole Enabled map is published for
Inspection Matrix extraction, and when any loaded scheme is out of sync the
published set is empty.  (The maps themselves are left untouched, so the
out-of-sync scheme indeed stays loaded in the Enabled map.) -/
theorem C2_amended_sync_all_or_nothing (currentDM : SyncID)
    (enabled idle : SchemeMap) :
    (isCollectionSchemesInSyncWithDm currentDM enabled idle = true ↔
      ((∀ p ∈ enabled, p.2.decoderManifestID = currentDM) ∧
        (∀ p ∈ idle, p.2.decoderManifestID = currentDM))) ∧
    (isCollectionSchemesInSyncWithDm currentDM enabled idle = true →
      updateActiveCollectionSchemeListeners currentDM enabled idle =
        enabled.map (fun p => p.2)) ∧
    (isCollectionSchemesInSyncWithDm currentDM enabled idle = false →
      updateActiveCollectionSchemeListeners currentDM enabled idle = []) := by
  refine ⟨?_, ?_, ?_⟩
  · simp [isCollectionSchemesInSyncWithDm, List.all_eq_true]
  · intro h
    simp [updateActiveCollectionSchemeListeners, h]
  · intro h
    simp [updateActiveCollectionSchemeListeners, h]

/-- Witness for C2 amended: a fully in-sync Enabled map is published whole. -/
theorem C2_amended_sync_witness :
    updateActiveCollectionSchemeListeners "DM1"
        [("A", ⟨"A", 5, 10, "DM1", 0⟩)] [] = [⟨"A", 5, 10, "DM1", 0⟩] :=
  (C2_amended_sync_all_or_nothing "DM1" [("A", ⟨"A", 5, 10, "DM1", 0⟩)] []).2.1
    (by decide)

/-- Claim C8 counterexample: after a wake (wokeUpFromSleep = true), two
consecutive full batches of PARALLEL_RECEIVED_FRAMES_FROM_KERNEL = 10 frames
are both discarded — the second, non-empty batch yields no frames for the
consumer — contradicting the claim that exactly the first batch after a wake
is discarded and subsequent batches are processed normally. -/
theorem C8_counterexample_full_batches :
    canProcessBatches true [List.range 10, List.range 10] = [[], []] ∧
    (List.range 10 : List Nat) ≠ [] := by
  decide

/-- Once the wokeUpFromSleep flag is false it stays false and every batch is
passed to the consumer unchanged. -/
theorem canProcessBatches_not_woke (bs : List (List Nat)) :
    canProcessBatches false bs = bs := by
  induction bs with
  | nil => rfl
  | cons b rest ih =>
    simp [canProcessBatches, canDoWorkIteration, ih]

/-- Claim C8 amended: after the thread is woken from the dictionary-null
sleep, a batch is discarded iff every earlier batch since the wake was a full
batch of PARALLEL_RECEIVED_FRAMES_FROM_KERNEL frames — that is, every batch
up to and including the first batch smaller than the maximum batch size is
discarded (the flag is only cleared by a non-full batch), and all later
batches are passed to the consumer unchanged. -/
theorem C8_amended_discard_until_non_full (bs : List (List Nat)) (i : Nat) :
    ((bs.take i).all
        (fun b => decide (PARALLEL_RECEIVED_FRAMES_FROM_KERNEL ≤ b.length)) = true →
      i < bs.length → (canProcessBatches true bs)[i]? = some []) ∧
    ((bs.take i).all
        (fun b => decide (PARALLEL_RECEIVED_FRAMES_FROM_KERNEL ≤ b.length)) = false →
      (canProcessBatches true bs)[i]? = bs[i]?) := by
  induction bs generalizing i with
  | nil =>
    constructor
    · intro _ hlt
      simp at hlt
    · intro hall
      simp at hall
  | cons b rest ih =>
    match i with
    | 0 =>
      constructor
      · intro _ _
        simp [canProcessBatches, canDoWorkIteration]
      · intro hall
        simp at hall
    | j + 1 =>
      by_cases hb : PARALLEL_RECEIVED_FRAMES_FROM_KERNEL ≤ b.length
      · have hwoke : (canDoWorkIteration true b).2 = true := by
          simp [canDoWorkIteration]
          omega
        constructor
        · intro hall hlt
          simp only [List.take_succ_cons, List.all_cons, Bool.and_eq_true,
            decide_eq_true_eq] at hall
          have := (ih j).1 hall.2 (by simpa using Nat.lt_of_succ_lt_succ hlt)
          simpa [canProcessBatches, hwoke] using this
        · intro hall
          simp only [List.take_succ_cons, List.all_cons, Bool.and_eq_false_iff,
            decide_eq_false_iff_not] at hall
          have hrest : (rest.take j).all
              (fun b => decide (PARALLEL_RECEIVED_FRAMES_FROM_KERNEL ≤ b.length)) = false := by
            rcases hall with h | h
            · exact absurd hb h
            · exact h
          have := (ih j).2 hrest
          simpa [canProcessBatches, hwoke] using this
      · have hwoke : (canDoWorkIteration true b).2 = false := by
          simp [canDoWorkIteration]
          omega
        constructor
        · intro hall _
          simp only [List.take_succ_cons, List.all_cons, Bool.and_eq_true,
            decide_eq_true_eq] at hall
          exact absurd hall.1 hb
        · intro _
          simp [canProcessBatches, hwoke, canProcessBatches_not_woke]

/-- Witness for C8 amended: after the wake, a 2-frame (non-full) batch is
discarded but the following batch is passed to the consumer unchanged. -/
theorem C8_amended_discard_witness :
    (canProcessBatches true [[1, 2], [3]])[1]? =
      ([[1, 2], [3]] : List (List Nat))[1]? :=
  (C8_amended_discard_until_non_full [[1, 2], [3]] 1).2 (by decide)

/-- Claim C1 counterexample: starting from the reachable state built by
rebuildMapsandTimeLine at time 0 from the single scheme A (start 5, expiry
10), the arrival of an updated CollectionScheme list processed by
updateMapsandTimeLine at time 6 moves scheme A from the Idle map to the
Enabled map while every Timeline entry of the prior state is still present
afterwards (the timeline only grew from [(5,A),(10,A)] to
[(5,A),(10,A),(10,A)]) — a flip without any heap pop, contradicting the
claim that flips happen only as the result of popping a matching Timeline
entry. -/
theorem C1_counterexample_update_flips_without_pop :
    let csA : CollectionScheme := ⟨"A", 5, 10, "DM1", 0⟩
    let s0 := (rebuildMapsandTimeLine 0 [csA] ⟨[], [], []⟩).2
    let s1 := (updateMapsandTimeLine 6 [csA] s0).2
    mapFind s0.enabled "A" = none ∧
    mapFind s0.idle "A" = some csA ∧
    mapFind s1.enabled "A" = some csA ∧
    mapFind s1.idle "A" = none ∧
    s0.timeLine = [⟨5, "A"⟩, ⟨10, "A"⟩] ∧
    s1.timeLine = [⟨5, "A"⟩, ⟨10, "A"⟩, ⟨10, "A"⟩] := by
  decide

/-- Claim C1 amended: in checkTimeLine — the path driven by the passage of
wall-clock time alone — no scheme flips between the Idle and Enabled maps
without a Timeline heap pop: whenever the call pops no entry, both maps are
returned unchanged.  (The update path updateMapsandTimeLine, by contrast,
may enable or disable schemes directly from the current time without any
pop, as the counterexample shows.) -/
theorem C1_amended_no_flip_without_pop (currTime : Timestamp) (s : PolicyState)
    (h : (checkTimeLine currTime s).2.2 = []) :
    (checkTimeLine currTime s).2.1.enabled = s.enabled ∧
      (checkTimeLine currTime s).2.1.idle = s.idle := by
  obtain ⟨e, i, tl⟩ := s
  cases tl with
  | nil => simp [checkTimeLine]
  | cons top rest =>
    by_cases hc : currTime < top.time
    · simp [checkTimeLine, hc]
    · simp only [checkTimeLine, if_neg hc] at h ⊢
      cases ho : checkTimeLineStep currTime e i top <;>
        simp [checkTimeLineLoop, ho] at h ⊢

/-- Witness for C1 amended: a call whose timeline top lies in the future pops
nothing and leaves both maps unchanged. -/
theorem C1_amended_no_flip_witness :
    (checkTimeLine 3
        (⟨[], [("A", ⟨"A", 5, 10, "DM1", 0⟩)], [⟨5, "A"⟩, ⟨10, "A"⟩]⟩ :
          PolicyState)).2.2 = [] ∧
    ((checkTimeLine 3
        ⟨[], [("A", ⟨"A", 5, 10, "DM1", 0⟩)], [⟨5, "A"⟩, ⟨10, "A"⟩]⟩).2.1.enabled
          = [] ∧
      (checkTimeLine 3
        ⟨[], [("A", ⟨"A", 5, 10, "DM1", 0⟩)], [⟨5, "A"⟩, ⟨10, "A"⟩]⟩).2.1.idle
          = [("A", ⟨"A", 5, 10, "DM1", 0⟩)]) :=
  ⟨by decide, C1_amended_no_flip_without_pop 3 _ (by decide)⟩

/-- Claim C3: for the loop body of checkTimeLine, applied to the current maps
and the top Timeline entry: an entry can only produce an enable flip when the
id is absent from the Enabled map, present in the Idle map, and the entry's
time equals that scheme's current start time and has been reached; a disable
flip only when the id is in the Enabled map and the entry's time equals that
scheme's current expiry time and has been reached.  Conversely an entry whose
id is in neither map, or whose time differs from the found scheme's current
expiry (Enabled) or start (Idle) time, is classified discard, and a discarded
pop continues the loop with both maps unchanged. -/
theorem C3_timeline_pop_soundness (currTime : Timestamp) (e i : SchemeMap)
    (top : TimeData) :
    (∀ cs, checkTimeLineStep currTime e i top = .enable cs →
      mapFind e top.id = none ∧ mapFind i top.id = some cs ∧
        cs.startTime = top.time ∧ top.time ≤ currTime) ∧
    (∀ cs, checkTimeLineStep currTime e i top = .disable cs →
      mapFind e top.id = some cs ∧ cs.expiryTime = top.time ∧
        top.time ≤ currTime) ∧
    (mapFind e top.id = none → mapFind i top.id = none →
      checkTimeLineStep currTime e i top = .discard) ∧
    (∀ cs, mapFind e top.id = some cs → cs.expiryTime ≠ top.time →
      checkTimeLineStep currTime e i top = .discard) ∧
    (∀ cs, mapFind e top.id = none → mapFind i top.id = some cs →
      cs.startTime ≠ top.time → checkTimeLineStep currTime e i top = .discard) ∧
    (∀ rest ret, checkTimeLineStep currTime e i top = .discard →
      checkTimeLineLoop currTime (top :: rest) e i ret =
        { checkTimeLineLoop currTime rest e i ret with
            popped := top :: (checkTimeLineLoop currTime rest e i ret).popped }) := by
  refine ⟨?_, ?_, ?_, ?_, ?_, ?_⟩
  · intro cs hstep
    cases he : mapFind e top.id with
    | some c =>
      simp only [checkTimeLineStep, he] at hstep
      split at hstep <;> [skip; split at hstep] <;> simp_all
    | none =>
      cases hi : mapFind i top.id with
      | some c =>
        simp only [checkTimeLineStep, he, hi] at hstep
        split at hstep
        · simp_all
        · split at hstep
          · refine ⟨rfl, ?_, ?_, ?_⟩ <;> simp_all
          · simp_all
      | none => simp [checkTimeLineStep, he, hi] at hstep
  · intro cs hstep
    cases he : mapFind e top.id with
    | some c =>
      simp only [checkTimeLineStep, he] at hstep
      split at hstep
      · simp_all
      · split at hstep
        · refine ⟨?_, ?_, ?_⟩ <;> simp_all
        · simp_all
    | none =>
      cases hi : mapFind i top.id with
      | some c =>
        simp only [checkTimeLineStep, he, hi] at hstep
        split at hstep <;> [skip; split at hstep] <;> simp_all
      | none => simp [checkTimeLineStep, he, hi] at hstep
  · intro he hi
    simp [checkTimeLineStep, he, hi]
  · intro cs he hne
    simp [checkTimeLineStep, he, hne]
  · intro cs he hi hne
    simp [checkTimeLineStep, he, hi, hne]
  · intro rest ret hstep
    simp [checkTimeLineLoop, hstep]

/-- Witness for C3: with both maps empty, a popped entry is classified as an
obsolete entry and the loop continues with both maps unchanged. -/
theorem C3_timeline_pop_soundness_witness :
    checkTimeLineStep 9 [] [] ⟨5, "X"⟩ = .discard :=
  (C3_timeline_pop_soundness 9 [] [] ⟨5, "X"⟩).2.2.1 rfl rfl

/-- rebuildMapsandTimeLine only touches map keys that occur as scheme ids in
the processed list: lookups of any other key are preserved in both maps. -/
theorem rebuild_preserves_find (currTime : Timestamp) (k : SyncID) :
    ∀ (schemes : List CollectionScheme) (s : PolicyState),
      k ∉ schemes.map (fun c => c.id) →
      mapFind (rebuildMapsandTimeLine currTime schemes s).2.enabled k =
          mapFind s.enabled k ∧
        mapFind (rebuildMapsandTimeLine currTime schemes s).2.idle k =
          mapFind s.idle k := by
  intro schemes
  induction schemes with
  | nil =>
    intro s _
    exact ⟨rfl, rfl⟩
  | cons c rest ih =>
    intro s h
    simp only [List.map_cons, List.mem_cons, not_or] at h
    obtain ⟨hne, hrest⟩ := h
    simp only [rebuildMapsandTimeLine]
    by_cases h1 : c.startTime > currTime
    · rw [if_pos h1]
      refine ⟨(ih _ hrest).1, (ih _ hrest).2.trans ?_⟩
      exact mapFind_insert_ne k c.id c s.idle hne
    · rw [if_neg h1]
      by_cases h2 : c.expiryTime > currTime
      · rw [if_pos h2]
        refine ⟨(ih _ hrest).1.trans ?_, (ih _ hrest).2⟩
        exact mapFind_insert_ne k c.id c s.enabled hne
      · rw [if_neg h2]
        exact ih s hrest

/-- Per-scheme placement of rebuildMapsandTimeLine: a scheme of the list
whose id occurs nowhere else in the list and is absent from both starting
maps ends up in the Idle map when its start is in the future, in the Enabled
map when started but not expired, and in neither map otherwise. -/
theorem rebuild_mem_cases (currTime : Timestamp) (cs : CollectionScheme) :
    ∀ (schemes : List CollectionScheme) (s : PolicyState),
      cs ∈ schemes → (schemes.map (fun c => c.id)).Nodup →
      mapFind s.enabled cs.id = none → mapFind s.idle cs.id = none →
      ((currTime < cs.startTime →
          mapFind (rebuildMapsandTimeLine currTime schemes s).2.idle cs.id = some cs ∧
          mapFind (rebuildMapsandTimeLine currTime schemes s).2.enabled cs.id = none) ∧
        (cs.startTime ≤ currTime → currTime < cs.expiryTime →
          mapFind (rebuildMapsandTimeLine currTime schemes s).2.enabled cs.id = some cs ∧
          mapFind (rebuildMapsandTimeLine currTime schemes s).2.idle cs.id = none) ∧
        (cs.startTime ≤ currTime → cs.expiryTime ≤ currTime →
          mapFind (rebuildMapsandTimeLine currTime schemes s).2.enabled cs.id = none ∧
          mapFind (rebuildMapsandTimeLine currTime schemes s).2.idle cs.id = none)) := by
  intro schemes
  induction schemes with
  | nil =>
    intro s hmem
    cases hmem
  | cons c rest ih =>
    intro s hmem hnd he hi
    rw [List.map_cons] at hnd
    have hcnotin : c.id ∉ rest.map (fun x => x.id) := (List.nodup_cons.mp hnd).1
    have hnd' : (rest.map (fun x => x.id)).Nodup := (List.nodup_cons.mp hnd).2
    rcases List.mem_cons.mp hmem with heq | hmem'
    · subst heq
      simp only [rebuildMapsandTimeLine]
      by_cases h1 : cs.startTime > currTime
      · rw [if_pos h1]
        have hp := rebuild_preserves_find currTime cs.id rest
          { s with idle := mapInsert cs.id cs s.idle,
                   timeLine := timelinePush ⟨cs.expiryTime, cs.id⟩
                     (timelinePush ⟨cs.startTime, cs.id⟩ s.timeLine) } hcnotin
        refine ⟨fun _ => ⟨?_, ?_⟩,
          fun hs _ => absurd h1 (Nat.not_lt.mpr hs),
          fun hs _ => absurd h1 (Nat.not_lt.mpr hs)⟩
        · exact hp.2.trans (mapFind_insert_self cs.id cs s.idle)
        · exact hp.1.trans he
      · rw [if_neg h1]
        by_cases h2 : cs.expiryTime > currTime
        · rw [if_pos h2]
          have hp := rebuild_preserves_find currTime cs.id rest
            { s with enabled := mapInsert cs.id cs s.enabled,
                     timeLine := timelinePush ⟨cs.expiryTime, cs.id⟩ s.timeLine }
            hcnotin
          refine ⟨fun hlt => absurd hlt h1, fun _ _ => ⟨?_, ?_⟩,
            fun _ hexp => absurd h2 (Nat.not_lt.mpr hexp)⟩
          · exact hp.1.trans (mapFind_insert_self cs.id cs s.enabled)
          · exact hp.2.trans hi
        · rw [if_neg h2]
          have hp := rebuild_preserves_find currTime cs.id rest s hcnotin
          refine ⟨fun hlt => absurd hlt h1, fun _ hlt2 => absurd hlt2 h2,
            fun _ _ => ⟨?_, ?_⟩⟩
          · exact hp.1.trans he
          · exact hp.2.trans hi
    · have hne : cs.id ≠ c.id := by
        intro hcc
        exact hcnotin (hcc ▸ List.mem_map_of_mem (fun x => x.id) hmem')
      simp only [rebuildMapsandTimeLine]
      by_cases h1 : c.startTime > currTime
      · rw [if_pos h1]
        exact ih
          { s with idle := mapInsert c.id c s.idle,
                   timeLine := timelinePush ⟨c.expiryTime, c.id⟩
                     (timelinePush ⟨c.startTime, c.id⟩ s.timeLine) }
          hmem' hnd' he ((mapFind_insert_ne cs.id c.id c s.idle hne).trans hi)
      · rw [if_neg h1]
        by_cases h2 : c.expiryTime > currTime
        · rw [if_pos h2]
          exact ih
            { s with enabled := mapInsert c.id c s.enabled,
                     timeLine := timelinePush ⟨c.expiryTime, c.id⟩ s.timeLine }
            hmem' hnd'
            ((mapFind_insert_ne cs.id c.id c s.enabled hne).trans he) hi
        · rw [if_neg h2]
          exact ih s hmem' hnd' he hi

/-- rebuildMapsandTimeLine returns true exactly when some scheme of the list
went to the Enabled map, i.e. has already started but not yet expired. -/
theorem rebuild_ret_iff (currTime : Timestamp) :
    ∀ (schemes : List CollectionScheme) (s : PolicyState),
      ((rebuildMapsandTimeLine currTime schemes s).1 = true ↔
        ∃ cs ∈ schemes, cs.startTime ≤ currTime ∧ currTime < cs.expiryTime) := by
  intro schemes
  induction schemes with
  | nil =>
    intro s
    simp [rebuildMapsandTimeLine]
  | cons c rest ih =>
    intro s
    simp only [rebuildMapsandTimeLine]
    by_cases h1 : c.startTime > currTime
    · rw [if_pos h1, ih]
      constructor
      · rintro ⟨cs, hmem, hcs⟩
        exact ⟨cs, List.mem_cons_of_mem _ hmem, hcs⟩
      · rintro ⟨cs, hmem, hcs⟩
        rcases List.mem_cons.mp hmem with heq | hmem'
        · exact absurd h1 (Nat.not_lt.mpr (heq ▸ hcs.1))
        · exact ⟨cs, hmem', hcs⟩
    · rw [if_neg h1]
      by_cases h2 : c.expiryTime > currTime
      · rw [if_pos h2]
        simp only [true_iff]
        exact ⟨c, List.mem_cons_self _ _, Nat.not_lt.mp h1, h2⟩
      · rw [if_neg h2, ih]
        constructor
        · rintro ⟨cs, hmem, hcs⟩
          exact ⟨cs, List.mem_cons_of_mem _ hmem, hcs⟩
        · rintro ⟨cs, hmem, hcs⟩
          rcases List.mem_cons.mp hmem with heq | hmem'
          · exact absurd (heq ▸ hcs.2) h2
          · exact ⟨cs, hmem', hcs⟩

/-- Claim C4: when the maps are rebuilt from a CollectionScheme list at time
now (starting, as in the source, from empty Enabled and Idle maps), every
scheme with now < start is placed in the Idle map, every scheme with
start ≤ now < expiry is placed in the Enabled map, and every scheme with
now ≥ expiry appears in neither map; the function returns true iff at least
one scheme was placed in the Enabled map.  The scheme ids are assumed
pairwise distinct and each scheme is assumed to satisfy the data-model
invariant start_time_ms < expiry_time_ms. -/
theorem C4_rebuild_placement (currTime : Timestamp)
    (schemes : List CollectionScheme) (tl : List TimeData)
    (hnd : (schemes.map (fun c => c.id)).Nodup)
    (hinv : ∀ c ∈ schemes, c.startTime < c.expiryTime) :
    (∀ cs ∈ schemes,
      (currTime < cs.startTime →
        mapFind (rebuildMapsandTimeLine currTime schemes ⟨[], [], tl⟩).2.idle cs.id
            = some cs ∧
          mapFind (rebuildMapsandTimeLine currTime schemes ⟨[], [], tl⟩).2.enabled cs.id
            = none) ∧
      (cs.startTime ≤ currTime → currTime < cs.expiryTime →
        mapFind (rebuildMapsandTimeLine currTime schemes ⟨[], [], tl⟩).2.enabled cs.id
            = some cs ∧
          mapFind (rebuildMapsandTimeLine currTime schemes ⟨[], [], tl⟩).2.idle cs.id
            = none) ∧
      (cs.expiryTime ≤ currTime →
        mapFind (rebuildMapsandTimeLine currTime schemes ⟨[], [], tl⟩).2.enabled cs.id
            = none ∧
          mapFind (rebuildMapsandTimeLine currTime schemes ⟨[], [], tl⟩).2.idle cs.id
            = none)) ∧
    ((rebuildMapsandTimeLine currTime schemes ⟨[], [], tl⟩).1 = true ↔
      ∃ cs ∈ schemes, cs.startTime ≤ currTime ∧ currTime < cs.expiryTime) := by
  constructor
  · intro cs hmem
    have h := rebuild_mem_cases currTime cs schemes ⟨[], [], tl⟩ hmem hnd rfl rfl
    refine ⟨h.1, h.2.1, fun hexp => ?_⟩
    exact h.2.2 (le_trans (le_of_lt (hinv cs hmem)) hexp) hexp
  · exact rebuild_ret_iff currTime schemes ⟨[], [], tl⟩

/-- Witness for C4: rebuilding at time 6 from schemes A (5..10, running),
B (20..30, future) and C (1..3, expired) puts A in the Enabled map, B in the
Idle map, drops C from both maps, and returns true. -/
theorem C4_rebuild_placement_witness :
    let schemes : List CollectionScheme :=
      [⟨"A", 5, 10, "DM1", 0⟩, ⟨"B", 20, 30, "DM1", 1⟩, ⟨"C", 1, 3, "DM1", 2⟩]
    mapFind (rebuildMapsandTimeLine 6 schemes ⟨[], [], []⟩).2.enabled "A" =
        some ⟨"A", 5, 10, "DM1", 0⟩ ∧
      mapFind (rebuildMapsandTimeLine 6 schemes ⟨[], [], []⟩).2.idle "B" =
        some ⟨"B", 20, 30, "DM1", 1⟩ ∧
      mapFind (rebuildMapsandTimeLine 6 schemes ⟨[], [], []⟩).2.enabled "C" = none ∧
      mapFind (rebuildMapsandTimeLine 6 schemes ⟨[], [], []⟩).2.idle "C" = none ∧
      (rebuildMapsandTimeLine 6 schemes ⟨[], [], []⟩).1 = true := by
  intro schemes
  have h := C4_rebuild_placement 6 schemes [] (by decide) (by decide)
  have hdrop := (h.1 ⟨"C", 1, 3, "DM1", 2⟩ (by decide)).2.2 (by decide)
  refine ⟨((h.1 ⟨"A", 5, 10, "DM1", 0⟩ (by decide)).2.1 (by decide) (by decide)).1,
    ((h.1 ⟨"B", 20, 30, "DM1", 1⟩ (by decide)).1 (by decide)).1,
    hdrop.1, hdrop.2, ?_⟩
  exact h.2.mpr ⟨⟨"A", 5, 10, "DM1", 0⟩, by decide, by decide, by decide⟩

end AwsIoTFleetWise
